import Mathlib

/-
Verification of the Ehblo e-learning platform (courses app).

Shallow embedding of the data model (courses/models.py) and the request
handlers (courses/views.py) that the specification's claims are about.
Django rows become Lean structures, tables become lists of rows, ORM
lookups (`get`, `get_object_or_404`, `filter`, aggregates) become list
operations, and each view's `post`/`get_queryset`/model method becomes a
pure function from its inputs and a database state to a new database
state and an outcome value.
-/

namespace Ehblo

/-- Acting user (users.CustomUser): only the fields the courses app reads. -/
structure CustomUser where
  id : Nat
  is_authenticated : Bool
  user_type : String
deriving DecidableEq, Repr

/-- Course row (courses.models.Course): fields used by the views under study. -/
structure CourseRow where
  id : Nat
  instructor : Nat
  is_published : Bool
deriving DecidableEq, Repr

/-- Module row (courses.models.Module). -/
structure ModuleRow where
  id : Nat
  course : Nat
deriving DecidableEq, Repr

/-- Content row (courses.models.Content): `content_type` is the stored
discriminator (lowercased model name, as Django's ContentType stores it) and
`object_id` the polymorphic target id. `order` is nullable in the model
(`PositiveIntegerField(blank=True, null=True)`), hence `Option Nat`. -/
structure ContentRow where
  id : Nat
  module : Nat
  title : String
  order : Option Nat
  content_type : String
  object_id : Nat
deriving DecidableEq, Repr

/-- TextContent row: payload field `text`. -/
structure TextContentRow where
  id : Nat
  text : String
deriving DecidableEq, Repr

/-- VideoContent row: payload field `url`. -/
structure VideoContentRow where
  id : Nat
  url : String
deriving DecidableEq, Repr

/-- ImageContent row: payload field `image` (stored path). -/
structure ImageContentRow where
  id : Nat
  image : String
deriving DecidableEq, Repr

/-- FileContent row: payload field `file` (stored path). -/
structure FileContentRow where
  id : Nat
  file : String
deriving DecidableEq, Repr

/-- Enrollment row (courses.models.Enrollment): `completed_contents` is the
many-to-many set of completed Content ids. -/
structure EnrollmentRow where
  id : Nat
  student : Nat
  course : Nat
  completed_contents : List Nat
deriving DecidableEq, Repr

/-- The database: one list per table of the courses app. -/
structure DB where
  courses : List CourseRow
  modules : List ModuleRow
  contents : List ContentRow
  texts : List TextContentRow
  videos : List VideoContentRow
  images : List ImageContentRow
  files : List FileContentRow
  enrollments : List EnrollmentRow
deriving DecidableEq, Repr

/-- `Course.objects.get(id=i)` as an optional lookup. -/
def findCourse (db : DB) (i : Nat) : Option CourseRow :=
  db.courses.find? (fun c => c.id == i)

/-- `Module.objects.get(id=i)` as an optional lookup. -/
def findModule (db : DB) (i : Nat) : Option ModuleRow :=
  db.modules.find? (fun m => m.id == i)

/-- `Content.objects.get(id=i)` as an optional lookup. -/
def findContent (db : DB) (i : Nat) : Option ContentRow :=
  db.contents.find? (fun c => c.id == i)

/-- `Enrollment.objects.get(id=i)` as an optional lookup. -/
def findEnrollment (db : DB) (i : Nat) : Option EnrollmentRow :=
  db.enrollments.find? (fun e => e.id == i)

/-- `get_object_or_404(Module, id=mid, course__instructor=request.user)`:
the module, if it exists and its course's instructor is the acting user. -/
def findModuleOwned (db : DB) (mid : Nat) (user : CustomUser) : Option ModuleRow :=
  db.modules.find? (fun m =>
    m.id == mid &&
      (match findCourse db m.course with
       | some course => course.instructor == user.id
       | none => false))

/-- Fresh id for an insert: 1 + the maximum id in the table (empty table gives 1). -/
def nextId (ids : List Nat) : Nat :=
  (ids.foldl Nat.max 0) + 1

/-! ### CourseDetailView (courses/views.py) -/

/-- `CourseDetailView.get_queryset`: authenticated instructors get the full
course table (including unpublished courses of other instructors); everyone
else only published courses. -/
def CourseDetailView.get_queryset (user : CustomUser) (db : DB) : List CourseRow :=
  if user.is_authenticated && user.user_type == "instructor" then
    db.courses
  else
    db.courses.filter (fun c => c.is_published)

/-! ### enroll_course (courses/views.py) -/

/-- Outcome of `enroll_course`. `redirectLogin` is the `@login_required`
redirect; `methodError` the non-POST message; `notStudent` the role message;
`alreadyEnrolled` the informational "already enrolled" message (a success
redirect to my_courses); `enrolled` the success message. -/
inductive EnrollOutcome
  | redirectLogin
  | courseNotFound
  | methodError
  | notStudent
  | alreadyEnrolled
  | enrolled
deriving DecidableEq, Repr

/-- `enroll_course(request, course_id)`: guards (login, course exists, POST,
student role), then the already-enrolled check, then `Enrollment.objects.create`. -/
def enroll_course (user : CustomUser) (method : String) (course_id : Nat)
    (db : DB) : DB × EnrollOutcome :=
  if !user.is_authenticated then (db, .redirectLogin)
  else
    match findCourse db course_id with
    | none => (db, .courseNotFound)
    | some course =>
      if method != "POST" then (db, .methodError)
      else if user.user_type != "student" then (db, .notStudent)
      else if db.enrollments.any (fun e => e.student == user.id && e.course == course.id) then
        (db, .alreadyEnrolled)
      else
        let row : EnrollmentRow :=
          ⟨nextId (db.enrollments.map (fun e => e.id)), user.id, course.id, []⟩
        ({db with enrollments := row :: db.enrollments}, .enrolled)

/-- `Enrollment.objects.filter(student=..., course=...).exists()` for a pair. -/
def hasEnrollment (db : DB) (sid cid : Nat) : Bool :=
  db.enrollments.any (fun e => e.student == sid && e.course == cid)

/-! ### Polymorphic content resolution (courses/models.py: Content.item, Content.render) -/

/-- A resolved variant payload row: one of the four content kinds. -/
inductive VariantRow
  | text : TextContentRow → VariantRow
  | video : VideoContentRow → VariantRow
  | image : ImageContentRow → VariantRow
  | file : FileContentRow → VariantRow
deriving DecidableEq, Repr

/-- The variant's lowercased class name (`__class__.__name__.lower()`). -/
def VariantRow.className : VariantRow → String
  | .text _ => "textcontent"
  | .video _ => "videocontent"
  | .image _ => "imagecontent"
  | .file _ => "filecontent"

/-- The id of the underlying variant row. -/
def VariantRow.rowId : VariantRow → Nat
  | .text r => r.id
  | .video r => r.id
  | .image r => r.id
  | .file r => r.id

/-- `Content.item` (the GenericForeignKey): look up the row named by the
stored discriminator and target id. Django's GenericForeignKey resolves a
discriminator naming no model, or a target id with no matching row, to
`None` (it swallows `ObjectDoesNotExist`); `Content.__str__` in models.py
relies on exactly that by falling back to "Unknown Content Type". -/
def Content.item (c : ContentRow) (db : DB) : Option VariantRow :=
  match c.content_type with
  | "textcontent" => (db.texts.find? (fun r => r.id == c.object_id)).map VariantRow.text
  | "videocontent" => (db.videos.find? (fun r => r.id == c.object_id)).map VariantRow.video
  | "imagecontent" => (db.images.find? (fun r => r.id == c.object_id)).map VariantRow.image
  | "filecontent" => (db.files.find? (fun r => r.id == c.object_id)).map VariantRow.file
  | _ => none

/-- `self.item.__class__.__name__.lower()`: the Python expression evaluates
to "nonetype" when the item is `None` (`None.__class__` is `NoneType`). -/
def itemClassNameLower (c : ContentRow) (db : DB) : String :=
  match Content.item c db with
  | some v => v.className
  | none => "nonetype"

/-- `Content.render`: the template path handed to `render_to_string`. The
repository only ships templates for the four kind names, so a path built
from "nonetype" names a missing template. -/
def Content.render (c : ContentRow) (db : DB) : String :=
  "courses/content/" ++ itemClassNameLower c db ++ ".html"

/-! ### CourseOwnerRequiredMixin (courses/views.py) -/

/-- The optional path identifiers (`self.kwargs`) the mixin inspects. -/
structure Kwargs where
  pk : Option Nat
  course_id : Option Nat
  module_id : Option Nat
  content_id : Option Nat
  enrollment_id : Option Nat
deriving DecidableEq, Repr

/-- Result of the mixin's identifier chain: `deny` is an early `return False`
(missing referenced row), `noId` means no identifier was present at all,
`found cid` means `course_id` was set to `cid`. -/
inductive Resolution
  | deny
  | noId
  | found (cid : Nat)
deriving DecidableEq, Repr

/-- The `if/elif` chain of `CourseOwnerRequiredMixin.test_func` that sets
`course_id`, in the source's priority order: `pk`, then `course_id`, then
`module_id` (via the module's course), then `content_id` (via the content's
module's course), then `enrollment_id` (via the enrollment's course). A
missing module/content/enrollment row is an early `return False`. The
parent-row lookups on the `content_id` path cannot fail under foreign-key
integrity; they map to `deny` here. -/
def resolveCourseId (kw : Kwargs) (db : DB) : Resolution :=
  match kw.pk with
  | some p => .found p
  | none =>
  match kw.course_id with
  | some c => .found c
  | none =>
  match kw.module_id with
  | some m =>
    (match findModule db m with
     | some moduleRow => .found moduleRow.course
     | none => .deny)
  | none =>
  match kw.content_id with
  | some cid =>
    (match findContent db cid with
     | some contentRow =>
       (match findModule db contentRow.module with
        | some moduleRow => .found moduleRow.course
        | none => .deny)
     | none => .deny)
  | none =>
  match kw.enrollment_id with
  | some eid =>
    (match findEnrollment db eid with
     | some enrollmentRow => .found enrollmentRow.course
     | none => .deny)
  | none => .noId

/-- `CourseOwnerRequiredMixin.test_func`: authenticated instructor check,
then the identifier chain, then `if course_id:` (Python truthiness, so a
resolved id of 0 is treated as no id), the course lookup, and the
instructor comparison. -/
def CourseOwnerRequiredMixin.test_func (user : CustomUser) (kw : Kwargs) (db : DB) : Bool :=
  if !(user.is_authenticated && user.user_type == "instructor") then false
  else
    match resolveCourseId kw db with
    | .deny => false
    | .noId => false
    | .found cid =>
      if cid != 0 then
        match findCourse db cid with
        | some course => course.instructor == user.id
        | none => false
      else false

/-! ### Enrollment progress (courses/models.py: Enrollment.get_progress) and
mark/unmark views (courses/views.py) -/

/-- `self.course.modules.aggregate(total=Count('contents'))['total']`: the
number of Content rows across the course's modules. -/
def totalContents (db : DB) (courseId : Nat) : Nat :=
  ((db.modules.filter (fun m => m.course == courseId)).map
    (fun m => (db.contents.filter (fun c => c.module == m.id)).length)).sum

/-- The ids of all Content rows across the course's modules (the full
content set that `completed_contents` is compared against). -/
def courseContentIds (db : DB) (courseId : Nat) : List Nat :=
  (db.modules.filter (fun m => m.course == courseId)).flatMap
    (fun m => (db.contents.filter (fun c => c.module == m.id)).map (fun c => c.id))

/-- `Enrollment.get_progress`: 0 when the course has no content, otherwise
`(completed_count / total_contents) * 100` in exact arithmetic. -/
def Enrollment.get_progress (e : EnrollmentRow) (db : DB) : ℚ :=
  if totalContents db e.course = 0 then 0
  else ((e.completed_contents.length : ℚ) / (totalContents db e.course : ℚ)) * 100

/-- `enrollment.completed_contents.add(content)`: idempotent set-add. -/
def addCompleted (e : EnrollmentRow) (cid : Nat) : EnrollmentRow :=
  if cid ∈ e.completed_contents then e
  else {e with completed_contents := cid :: e.completed_contents}

/-- `enrollment.completed_contents.remove(content)`: removes the id. -/
def removeCompleted (e : EnrollmentRow) (cid : Nat) : EnrollmentRow :=
  {e with completed_contents := e.completed_contents.filter (fun x => x != cid)}

/-- Write back an updated enrollment row. -/
def updateEnrollment (db : DB) (eid : Nat) (e : EnrollmentRow) : DB :=
  {db with enrollments := db.enrollments.map (fun x => if x.id == eid then e else x)}

/-- Outcome of the mark/unmark completion views. -/
inductive MarkOutcome
  | invalidMethod
  | notFound
  | marked
  | alreadyDone
  | unmarked
  | wasNotMarked
deriving DecidableEq, Repr

/-- `mark_content_as_complete(request, enrollment_id, module_id, content_id)`:
POST check, scoped lookups (`student=request.user`, `course=course`,
`module=module`), then the idempotent completion-set add. -/
def mark_content_as_complete (user : CustomUser) (method : String)
    (enrollment_id module_id content_id : Nat) (db : DB) : DB × MarkOutcome :=
  if method != "POST" then (db, .invalidMethod)
  else
    match db.enrollments.find? (fun e => e.id == enrollment_id && e.student == user.id) with
    | none => (db, .notFound)
    | some enrollment =>
      match db.modules.find? (fun m => m.id == module_id && m.course == enrollment.course) with
      | none => (db, .notFound)
      | some _ =>
        match db.contents.find? (fun c => c.id == content_id && c.module == module_id) with
        | none => (db, .notFound)
        | some selected =>
          if enrollment.completed_contents.any (fun x => x == selected.id) then
            (db, .alreadyDone)
          else
            (updateEnrollment db enrollment.id (addCompleted enrollment selected.id), .marked)

/-- `unmark_content_as_complete`: same lookups, then the completion-set remove. -/
def unmark_content_as_complete (user : CustomUser) (method : String)
    (enrollment_id module_id content_id : Nat) (db : DB) : DB × MarkOutcome :=
  if method != "POST" then (db, .invalidMethod)
  else
    match db.enrollments.find? (fun e => e.id == enrollment_id && e.student == user.id) with
    | none => (db, .notFound)
    | some enrollment =>
      match db.modules.find? (fun m => m.id == module_id && m.course == enrollment.course) with
      | none => (db, .notFound)
      | some _ =>
        match db.contents.find? (fun c => c.id == content_id && c.module == module_id) with
        | none => (db, .notFound)
        | some selected =>
          if enrollment.completed_contents.any (fun x => x == selected.id) then
            (updateEnrollment db enrollment.id (removeCompleted enrollment selected.id), .unmarked)
          else
            (db, .wasNotMarked)

/-! ### ContentOrderView (courses/views.py): bulk reorder endpoint -/

/-- One element of the JSON payload: the `id` and `order` keys, each absent
when the object is malformed (accessing an absent key raises `KeyError`). -/
structure OrderItem where
  id : Option Nat
  order : Option Nat
deriving DecidableEq, Repr

/-- Response of the reorder endpoint: 200 success, 400 invalid JSON,
404 "Content ... not found or not in module", 400 "Missing ID or order". -/
inductive OrderResponse
  | ok
  | invalidJson
  | contentNotFound
  | missingKey
  | moduleNotFound
deriving DecidableEq, Repr

/-- `content_obj.order = item['order']; content_obj.save()`. -/
def updateContentOrder (db : DB) (cid : Nat) (o : Nat) : DB :=
  let newContents := db.contents.map (fun c => if c.id == cid then {c with order := some o} else c)
  {db with contents := newContents}

/-- The `for item in content_order` loop: each iteration looks up the
content scoped to the module (`Content.objects.get(id=item['id'],
module=module)`), then assigns and saves the new order. The first failing
item returns immediately; updates already saved for earlier items are kept
(there is no transaction around the loop). -/
def contentOrderLoop (mid : Nat) (db : DB) : List OrderItem → DB × OrderResponse
  | [] => (db, .ok)
  | ⟨none, _⟩ :: _ => (db, .missingKey)
  | ⟨some i, ord⟩ :: rest =>
    match db.contents.find? (fun c => c.id == i && c.module == mid) with
    | none => (db, .contentNotFound)
    | some c =>
      match ord with
      | none => (db, .missingKey)
      | some o => contentOrderLoop mid (updateContentOrder db c.id o) rest

/-- `ContentOrderView.post`: owner-scoped module lookup, JSON decode
(`body = none` models a decode failure), then the per-item loop. -/
def ContentOrderView.post (user : CustomUser) (module_id : Nat)
    (body : Option (List OrderItem)) (db : DB) : DB × OrderResponse :=
  match findModuleOwned db module_id user with
  | none => (db, .moduleNotFound)
  | some _ =>
    match body with
    | none => (db, .invalidJson)
    | some items => contentOrderLoop module_id db items

/-! ### ModuleContentCreateUpdateView.post (courses/views.py) -/

/-- The four form classes `get_content_form_class` can return. -/
inductive ContentFormClass
  | text
  | video
  | image
  | file
deriving DecidableEq, Repr

/-- `ModuleContentCreateUpdateView.get_content_form_class`: the form class
for a recognized lowercased kind name, `none` otherwise. -/
def ModuleContentCreateUpdateView.get_content_form_class
    (model_name : String) : Option ContentFormClass :=
  if model_name == "textcontent" then some .text
  else if model_name == "videocontent" then some .video
  else if model_name == "imagecontent" then some .image
  else if model_name == "filecontent" then some .file
  else none

/-- `item_form.save()` on a create: insert a fresh payload row into the
table of the chosen kind; returns the new row's id. -/
def saveNewVariant (db : DB) (cls : ContentFormClass) (payload : String) : DB × Nat :=
  match cls with
  | .text =>
    let nid := nextId (db.texts.map (fun r => r.id))
    ({db with texts := ⟨nid, payload⟩ :: db.texts}, nid)
  | .video =>
    let nid := nextId (db.videos.map (fun r => r.id))
    ({db with videos := ⟨nid, payload⟩ :: db.videos}, nid)
  | .image =>
    let nid := nextId (db.images.map (fun r => r.id))
    ({db with images := ⟨nid, payload⟩ :: db.images}, nid)
  | .file =>
    let nid := nextId (db.files.map (fun r => r.id))
    ({db with files := ⟨nid, payload⟩ :: db.files}, nid)

/-- `item_form.save()` with `instance=content_item` on an update: overwrite
the payload of the variant row the content points at. -/
def updateVariant (db : DB) (cls : ContentFormClass) (oid : Nat) (payload : String) : DB :=
  match cls with
  | .text => {db with texts := db.texts.map (fun r => if r.id == oid then ⟨r.id, payload⟩ else r)}
  | .video => {db with videos := db.videos.map (fun r => if r.id == oid then ⟨r.id, payload⟩ else r)}
  | .image => {db with images := db.images.map (fun r => if r.id == oid then ⟨r.id, payload⟩ else r)}
  | .file => {db with files := db.files.map (fun r => if r.id == oid then ⟨r.id, payload⟩ else r)}

/-- On an update: `content_obj.title = ...; content_obj.order = ...;
content_obj.save()`. -/
def updateContentMeta (db : DB) (cid : Nat) (title : String) (order : Option Nat) : DB :=
  let newContents := db.contents.map (fun c => if c.id == cid then {c with title := title, order := order} else c)
  {db with contents := newContents}

/-- `module.contents.aggregate(max_order=Max('order'))`: the maximum of the
non-null orders of the module's contents, `none` when there are none. -/
def maxOrderIn (db : DB) (mid : Nat) : Option Nat :=
  ((db.contents.filter (fun c => c.module == mid)).filterMap (fun c => c.order)).max?

/-- A content create/update POST request: the path parts (`module_id`,
`model_name`, optional `pk`) and the submitted form data. `itemFormValid`
and `contentFormValid` abstract the two forms' `is_valid()`; `formTitle`
and `formOrder` are `content_form.cleaned_data['title']` / `['order']`
(the order field is optional, so it cleans to `None` when blank);
`itemData` is the variant payload field. -/
structure ContentRequest where
  module_id : Nat
  model_name : String
  pk : Option Nat
  itemFormValid : Bool
  contentFormValid : Bool
  formTitle : String
  formOrder : Option Nat
  itemData : String
deriving DecidableEq, Repr

/-- Outcome of `ModuleContentCreateUpdateView.post`. `notFound` is an
`Http404`; `conflict` is the kind-mismatch redirect with the "Mismatch
between content type in URL and existing content" error message;
`typeError` is the uncaught `TypeError` Python raises when
`get_content_form_class` returned `None` and the code calls
`None(request.POST, request.FILES)`; `invalidForms` re-renders with field
errors. -/
inductive ContentPostOutcome
  | notFound
  | conflict
  | typeError
  | invalidForms
  | saved
deriving DecidableEq, Repr

/-- `ModuleContentCreateUpdateView.post`: owner-scoped module lookup; on an
update (`pk` present) the content lookup, the module-membership check
(`Http404`), and the kind-match check against the resolved item's class
name (mismatch redirect); then form instantiation — when
`get_content_form_class` returns `None`, the source calls
`None(request.POST, request.FILES)`, a `TypeError`, before its dead
`if item_form is None: raise Http404` guard; then validation and, inside
`transaction.atomic()`, the payload save and the Content save. On a create
the order is the form's order if supplied, else
`(max existing order or 0) + 1`. -/
def ModuleContentCreateUpdateView.post (req : ContentRequest) (user : CustomUser)
    (db : DB) : DB × ContentPostOutcome :=
  match findModuleOwned db req.module_id user with
  | none => (db, .notFound)
  | some _ =>
    match req.pk with
    | some cid =>
      match findContent db cid with
      | none => (db, .notFound)
      | some content_obj =>
        if content_obj.module != req.module_id then (db, .notFound)
        else if itemClassNameLower content_obj db != req.model_name then (db, .conflict)
        else
          match ModuleContentCreateUpdateView.get_content_form_class req.model_name with
          | none => (db, .typeError)
          | some cls =>
            if req.itemFormValid && req.contentFormValid then
              let db1 := updateVariant db cls content_obj.object_id req.itemData
              (updateContentMeta db1 cid req.formTitle req.formOrder, .saved)
            else (db, .invalidForms)
    | none =>
      match ModuleContentCreateUpdateView.get_content_form_class req.model_name with
      | none => (db, .typeError)
      | some cls =>
        if req.itemFormValid && req.contentFormValid then
          let saved := saveNewVariant db cls req.itemData
          let determined_order : Nat :=
            match req.formOrder with
            | none => ((maxOrderIn db req.module_id).getD 0) + 1
            | some o => o
          let content_obj : ContentRow :=
            ⟨nextId (saved.1.contents.map (fun c => c.id)), req.module_id,
              req.formTitle, some determined_order, req.model_name, saved.2⟩
          ({saved.1 with contents := content_obj :: saved.1.contents}, .saved)
        else (db, .invalidForms)

/-! ### Concrete fixtures used by the closed theorems -/

/-- An authenticated instructor, id 7, owner of course 1 in the fixtures. -/
def instructorUser : CustomUser := ⟨7, true, "instructor"⟩

/-- An authenticated student, id 21. -/
def studentUser : CustomUser := ⟨21, true, "student"⟩

/-- Course 1 (instructor 7) with module 1 holding contents of orders
1, 2, 3 (ids 1, 3, 4) and module 2 holding content id 2. -/
def dbReorder : DB :=
  ⟨[⟨1, 7, true⟩], [⟨1, 1⟩, ⟨2, 1⟩],
   [⟨1, 1, "a", some 1, "textcontent", 1⟩, ⟨3, 1, "b", some 2, "textcontent", 2⟩,
    ⟨4, 1, "c", some 3, "textcontent", 3⟩, ⟨2, 2, "d", some 1, "textcontent", 4⟩],
   [], [], [], [], []⟩

/-- Course 1 (instructor 7), modules 1 and 2, content id 5 in module 1
pointing at text row 1. -/
def dbContent : DB :=
  ⟨[⟨1, 7, true⟩], [⟨1, 1⟩, ⟨2, 1⟩], [⟨5, 1, "t", some 1, "textcontent", 1⟩],
   [⟨1, "hello"⟩], [], [], [], []⟩

/-- Course 1 with module 1 and a content whose discriminator is
"textcontent" but whose target id 99 has no text row. -/
def dbDangling : DB :=
  ⟨[⟨1, 7, true⟩], [⟨1, 1⟩], [⟨6, 1, "g", some 2, "textcontent", 99⟩], [], [], [], [], []⟩

/-- The dangling content row of `dbDangling`. -/
def danglingContent : ContentRow := ⟨6, 1, "g", some 2, "textcontent", 99⟩

/-- Course 1 with no modules at all, and one enrollment (student 21) with
an empty completion set. -/
def dbEmptyCourse : DB := ⟨[⟨1, 7, true⟩], [], [], [], [], [], [], [⟨1, 21, 1, []⟩]⟩

/-- The enrollment row of `dbEmptyCourse`. -/
def emptyCourseEnrollment : EnrollmentRow := ⟨1, 21, 1, []⟩

/-- Course 1 (instructor 7) and no enrollments. -/
def dbNoEnroll : DB := ⟨[⟨1, 7, true⟩], [], [], [], [], [], [], []⟩

/-- Update request for content 5 sent with module 2 in the path: the stored
module (1) differs from the request's module. -/
def reqModuleMismatch : ContentRequest := ⟨2, "textcontent", some 5, true, true, "t2", some 3, "x"⟩

/-- Create request naming an unrecognized kind. -/
def reqUnknownKind : ContentRequest := ⟨1, "quizcontent", none, true, true, "T", none, "x"⟩

/-- Path kwargs carrying only `pk = 1`. -/
def kwPk1 : Kwargs := ⟨some 1, none, none, none, none⟩

/-- `dbReorder` together with an enrollment of student 21 in course 1 that
has completed all four contents of the course. -/
def dbProgress : DB :=
  ⟨[⟨1, 7, true⟩], [⟨1, 1⟩, ⟨2, 1⟩],
   [⟨1, 1, "a", some 1, "textcontent", 1⟩, ⟨3, 1, "b", some 2, "textcontent", 2⟩,
    ⟨4, 1, "c", some 3, "textcontent", 3⟩, ⟨2, 2, "d", some 1, "textcontent", 4⟩],
   [], [], [], [], [⟨1, 21, 1, [1, 3, 4, 2]⟩]⟩

/-- The enrollment row of `dbProgress`. -/
def progressEnrollment : EnrollmentRow := ⟨1, 21, 1, [1, 3, 4, 2]⟩

/-! ### Decomposition of the reorder loop, for stating its actual
(sequential, partially-applying) behaviour -/

/-- An item the loop would accept: both keys present and the id names a
content row of the module. -/
def itemValid (db : DB) (mid : Nat) : OrderItem → Bool
  | ⟨none, _⟩ => false
  | ⟨some i, ord⟩ =>
    match db.contents.find? (fun c => c.id == i && c.module == mid) with
    | none => false
    | some _ => ord.isSome

/-- The response the loop produces at the first offending item. -/
def itemFailure (db : DB) (mid : Nat) : OrderItem → OrderResponse
  | ⟨none, _⟩ => .missingKey
  | ⟨some i, ord⟩ =>
    match db.contents.find? (fun c => c.id == i && c.module == mid) with
    | none => .contentNotFound
    | some _ =>
      match ord with
      | none => .missingKey
      | some _ => .ok

/-- The state after applying a list of (id, order) assignments in sequence. -/
def applyItems (mid : Nat) (db : DB) : List OrderItem → DB
  | [] => db
  | ⟨some i, some o⟩ :: rest => applyItems mid (updateContentOrder db i o) rest
  | _ :: _ => db

end Ehblo

namespace Ehblo

/-- C10: `CourseDetailView.get_queryset` membership: a course is retrievable
exactly when it is in the table and either the acting user is an
authenticated instructor (any instructor, regardless of course ownership or
publication state) or the course is published. In particular an
authenticated instructor retrieves unpublished courses of other
instructors, while anonymous users and students retrieve only published
courses. -/
theorem courseDetail_queryset_membership (user : CustomUser) (db : DB) (c : CourseRow) :
    c ∈ CourseDetailView.get_queryset user db ↔
      c ∈ db.courses ∧
        ((user.is_authenticated = true ∧ user.user_type = "instructor") ∨
          c.is_published = true) := by
  unfold CourseDetailView.get_queryset
  by_cases hcond : (user.is_authenticated && user.user_type == "instructor") = true
  · have hconj : user.is_authenticated = true ∧ user.user_type = "instructor" := by
      simpa using hcond
    rw [if_pos hcond]
    exact ⟨fun h => ⟨h, Or.inl hconj⟩, fun h => h.1⟩
  · rw [if_neg hcond]
    rw [List.mem_filter]
    constructor
    · intro h
      exact ⟨h.1, Or.inr (by simpa using h.2)⟩
    · intro h
      refine ⟨h.1, ?_⟩
      rcases h.2 with hins | hpub
      · exact absurd (by simp [hins.1, hins.2]) hcond
      · simpa using hpub

/-- C8: on module 1 of `dbReorder`, whose contents have orders [1,2,3], the
bulk reorder request [{id:2,order:5},{id:1,order:1}] — where content 2
belongs to module 2 — returns the 404 "not found or not in module"
response with the database unchanged: module 1's orders are still
[1,2,3], and in particular id 1's order was not rewritten before the
failure was reported (the offending pair is processed first). -/
theorem reorder_scoped_batch_c8 :
    ContentOrderView.post instructorUser 1
        (some [⟨some 2, some 5⟩, ⟨some 1, some 1⟩]) dbReorder =
      (dbReorder, OrderResponse.contentNotFound) ∧
    ((dbReorder.contents.filter (fun c => c.module == 1)).map (fun c => c.order)) =
      [some 1, some 2, some 3] := by
  decide

/-- C1 counterexample: the reorder endpoint does not validate the whole
batch before writing. On `dbReorder`, the request
[{id:1,order:9},{id:2,order:1}] (content 2 is out of scope) reports the
404 response, yet content 1's order has already been rewritten to 9: the
resulting state differs from the initial one, refuting "leaving every
content's order in the module unchanged (no partial application)". -/
theorem reorder_partial_write_counterexample :
    (ContentOrderView.post instructorUser 1
        (some [⟨some 1, some 9⟩, ⟨some 2, some 1⟩]) dbReorder).2 =
      OrderResponse.contentNotFound ∧
    (((ContentOrderView.post instructorUser 1
        (some [⟨some 1, some 9⟩, ⟨some 2, some 1⟩]) dbReorder).1.contents.find?
          (fun c => c.id == 1)).map (fun c => c.order)) = some (some 9) ∧
    (ContentOrderView.post instructorUser 1
        (some [⟨some 1, some 9⟩, ⟨some 2, some 1⟩]) dbReorder).1 ≠ dbReorder := by
  refine ⟨by decide, by decide, by decide⟩

/-- C2 counterexample: updating content 5 (stored in module 1) through a
request scoped to module 2 is a module mismatch, and the code answers it
with the `Http404` branch ("Content does not belong to this module"), not
the Conflict (kind-mismatch) branch; the database is untouched. This
refutes the claim that a stored-module mismatch fails with a Conflict
error. -/
theorem content_update_module_mismatch_counterexample :
    ModuleContentCreateUpdateView.post reqModuleMismatch instructorUser dbContent =
      (dbContent, ContentPostOutcome.notFound) ∧
    (ModuleContentCreateUpdateView.post reqModuleMismatch instructorUser dbContent).2 ≠
      ContentPostOutcome.conflict := by
  refine ⟨by decide, by decide⟩

/-- C4: a create request whose kind name is not one of the four recognized
variant kinds makes `post` call `None(request.POST, request.FILES)` — an
uncaught `TypeError`, not the `Http404` of the dead `if item_form is None`
guard below it. Nothing is persisted. -/
theorem content_create_unknown_kind_typeerror :
    ModuleContentCreateUpdateView.post reqUnknownKind instructorUser dbContent =
      (dbContent, ContentPostOutcome.typeError) ∧
    (ModuleContentCreateUpdateView.post reqUnknownKind instructorUser dbContent).2 ≠
      ContentPostOutcome.notFound := by
  refine ⟨by decide, by decide⟩

/-- C9 counterexample: for a content whose discriminator is "textcontent"
but whose target id has no matching row, the generic-foreign-key
resolution yields `none` silently — no NotFound failure — and `render`
proceeds to build the template path from "nonetype" (`None.__class__`),
refuting "fails with NotFound when the target id has no matching row ...
never yields an absent variant silently". -/
theorem content_item_dangling_counterexample :
    Content.item danglingContent dbDangling = none ∧
    itemClassNameLower danglingContent dbDangling = "nonetype" ∧
    Content.render danglingContent dbDangling = "courses/content/nonetype.html" :=
  ⟨rfl, rfl, rfl⟩

/-- C6 counterexample: in a course with zero content items the completed
set (empty) equals the full content set (also empty), yet
`Enrollment.get_progress` is 0, not 100 — refuting the unconditional
"progress is 100 when the completed set equals the full content set". -/
theorem progress_empty_course_counterexample :
    emptyCourseEnrollment.completed_contents = [] ∧
    courseContentIds dbEmptyCourse emptyCourseEnrollment.course = [] ∧
    Enrollment.get_progress emptyCourseEnrollment dbEmptyCourse = 0 ∧
    Enrollment.get_progress emptyCourseEnrollment dbEmptyCourse ≠ 100 := by
  refine ⟨rfl, rfl, rfl, by decide⟩

/-- A successful course lookup returns a table row whose id is the searched id. -/
theorem findCourse_eq_some {db : DB} {i : Nat} {c : CourseRow}
    (h : findCourse db i = some c) : c ∈ db.courses ∧ c.id = i := by
  unfold findCourse at h
  refine ⟨List.mem_of_find?_eq_some h, ?_⟩
  have hp := List.find?_some h
  simpa using hp

/-- C5: under a database whose course ids are nonzero (Django primary keys
are positive), `CourseOwnerRequiredMixin.test_func` grants access exactly
when the user is authenticated, has the instructor role, the identifier
chain resolves to a course id, and that id names a course whose
instructor is the user. Denial in every other situation — unresolvable
identifier, missing referenced row, or no identifier at all — is the
contrapositive of this equivalence. -/
theorem courseOwner_test_func_iff (user : CustomUser) (kw : Kwargs) (db : DB)
    (hids : db.courses.all (fun c => c.id != 0) = true) :
    CourseOwnerRequiredMixin.test_func user kw db = true ↔
      user.is_authenticated = true ∧ user.user_type = "instructor" ∧
        ∃ cid course, resolveCourseId kw db = Resolution.found cid ∧
          findCourse db cid = some course ∧ course.instructor = user.id := by
  have hids' : ∀ c ∈ db.courses, c.id ≠ 0 := by
    intro c hc
    have := List.all_eq_true.mp hids c hc
    simpa using this
  unfold CourseOwnerRequiredMixin.test_func
  by_cases hcond : (user.is_authenticated && user.user_type == "instructor") = true
  · have hconj : user.is_authenticated = true ∧ user.user_type = "instructor" := by
      simpa using hcond
    simp only [hcond, Bool.not_true, Bool.false_eq_true, if_false]
    rcases hres : resolveCourseId kw db with _ | _ | cid
    · simp [hconj]
    · simp [hconj]
    · by_cases hcid : cid = 0
      · subst hcid
        simp only [hconj, true_and]
        constructor
        · intro h
          simp at h
        · rintro ⟨cid', course, hfound, hcourse, _⟩
          have hcid' : cid' = 0 := by
            simpa using hfound.symm
          subst hcid'
          rcases findCourse_eq_some hcourse with ⟨hmem, hid⟩
          exact absurd hid (hids' course hmem)
      · have hne : (cid != 0) = true := by
          simpa using hcid
        simp only [hne, if_true, hconj, true_and]
        rcases hc : findCourse db cid with _ | course
        · constructor
          · intro h
            simp at h
          · rintro ⟨cid', course, hfound, hcourse, _⟩
            have : cid' = cid := by
              simpa using hfound.symm
            subst this
            rw [hc] at hcourse
            exact absurd hcourse (by simp)
        · constructor
          · intro h
            refine ⟨cid, course, rfl, hc, ?_⟩
            simpa using h
          · rintro ⟨cid', course', hfound, hcourse, hins⟩
            have : cid' = cid := by
              simpa using hfound.symm
            subst this
            rw [hc] at hcourse
            have : course' = course := by
              simpa using hcourse.symm
            subst this
            simpa using hins
  · have hfail : ¬(user.is_authenticated = true ∧ user.user_type = "instructor") := by
      intro h
      exact hcond (by simp [h.1, h.2])
    simp only [Bool.not_eq_true] at hcond
    simp only [hcond, Bool.not_false, if_true]
    constructor
    · intro h
      simp at h
    · rintro ⟨h1, h2, _⟩
      exact absurd ⟨h1, h2⟩ hfail

/-- C5 witness: the equivalence applied to `kwPk1` (direct course id 1) on
`dbContent` for the owning instructor. -/
theorem courseOwner_test_func_iff_witness :
    (dbContent.courses.all (fun c => c.id != 0) = true) ∧
    (CourseOwnerRequiredMixin.test_func instructorUser kwPk1 dbContent = true ↔
      instructorUser.is_authenticated = true ∧ instructorUser.user_type = "instructor" ∧
        ∃ cid course, resolveCourseId kwPk1 dbContent = Resolution.found cid ∧
          findCourse dbContent cid = some course ∧ course.instructor = instructorUser.id) :=
  ⟨by decide, courseOwner_test_func_iff instructorUser kwPk1 dbContent (by decide)⟩

/-- C7: for an authenticated user and an existing course, a POST to
`enroll_course` creates an Enrollment exactly when the user has the
student role and no row exists for the (student, course) pair. When it
creates, the new row is for that pair; a second identical call is the
informational "already enrolled" no-op leaving the state unchanged, and
the pair then has exactly one Enrollment row. A call with an existing
pair, or from a non-student, changes nothing. -/
theorem enroll_course_spec (user : CustomUser) (course_id : Nat) (db : DB)
    (course : CourseRow)
    (hauth : user.is_authenticated = true)
    (hcourse : findCourse db course_id = some course) :
    ((user.user_type = "student" ∧ hasEnrollment db user.id course_id = false) →
      ∃ row : EnrollmentRow,
        enroll_course user "POST" course_id db =
          ({db with enrollments := row :: db.enrollments}, EnrollOutcome.enrolled) ∧
        row.student = user.id ∧ row.course = course_id ∧
        enroll_course user "POST" course_id {db with enrollments := row :: db.enrollments} =
          ({db with enrollments := row :: db.enrollments}, EnrollOutcome.alreadyEnrolled) ∧
        ((row :: db.enrollments).filter
          (fun e => e.student == user.id && e.course == course_id)).length = 1) ∧
    (user.user_type = "student" → hasEnrollment db user.id course_id = true →
      enroll_course user "POST" course_id db = (db, EnrollOutcome.alreadyEnrolled)) ∧
    (user.user_type ≠ "student" →
      enroll_course user "POST" course_id db = (db, EnrollOutcome.notStudent)) := by
  rcases findCourse_eq_some hcourse with ⟨_, hcid⟩
  have hpost : (("POST" : String) != "POST") = false := by decide
  refine ⟨?_, ?_, ?_⟩
  · rintro ⟨hstudent, hnone⟩
    have hstu : (user.user_type != "student") = false := by
      simp [hstudent]
    have hany : (db.enrollments.any (fun e => e.student == user.id && e.course == course.id)) = false := by
      rw [hcid]
      exact hnone
    refine ⟨⟨nextId (db.enrollments.map (fun e => e.id)), user.id, course.id, []⟩, ?_, rfl, hcid, ?_, ?_⟩
    · unfold enroll_course
      simp only [hauth, Bool.not_true, Bool.false_eq_true, if_false, hcourse, hpost, hstu, hany]
    · unfold enroll_course
      have hany' : (((⟨nextId (db.enrollments.map (fun e => e.id)), user.id, course.id, []⟩ : EnrollmentRow)
          :: db.enrollments).any (fun e => e.student == user.id && e.course == course.id)) = true := by
        simp [List.any_cons]
      have hcourse2 : findCourse {db with enrollments :=
          (⟨nextId (db.enrollments.map (fun e => e.id)), user.id, course.id, []⟩ : EnrollmentRow)
            :: db.enrollments} course_id = some course := hcourse
      simp only [hauth, Bool.not_true, Bool.false_eq_true, if_false, hcourse2, hpost, hstu, hany', if_true]
    · have hfilt : (db.enrollments.filter (fun e => e.student == user.id && e.course == course_id)) = [] := by
        rw [List.filter_eq_nil_iff]
        intro e he
        have := List.any_eq_false.mp hnone e he
        simpa using this
      rw [List.filter_cons_of_pos (by simp [hcid]), hfilt]
      rfl
  · intro hstudent hsome
    have hstu : (user.user_type != "student") = false := by
      simp [hstudent]
    have hany : (db.enrollments.any (fun e => e.student == user.id && e.course == course.id)) = true := by
      rw [hcid]
      exact hsome
    unfold enroll_course
    simp only [hauth, Bool.not_true, Bool.false_eq_true, if_false, hcourse, hpost, hstu, hany, if_true]
  · intro hnot
    have hstu : (user.user_type != "student") = true := by
      simp [hnot]
    unfold enroll_course
    simp only [hauth, Bool.not_true, Bool.false_eq_true, if_false, hcourse, hpost, hstu, if_true]

/-- C7 witness: the theorem applied to student 21 enrolling in course 1 of
`dbNoEnroll`. -/
theorem enroll_course_spec_witness :
    studentUser.is_authenticated = true ∧
    findCourse dbNoEnroll 1 = some ⟨1, 7, true⟩ ∧
    (((studentUser.user_type = "student" ∧ hasEnrollment dbNoEnroll studentUser.id 1 = false) →
      ∃ row : EnrollmentRow,
        enroll_course studentUser "POST" 1 dbNoEnroll =
          ({dbNoEnroll with enrollments := row :: dbNoEnroll.enrollments}, EnrollOutcome.enrolled) ∧
        row.student = studentUser.id ∧ row.course = 1 ∧
        enroll_course studentUser "POST" 1 {dbNoEnroll with enrollments := row :: dbNoEnroll.enrollments} =
          ({dbNoEnroll with enrollments := row :: dbNoEnroll.enrollments}, EnrollOutcome.alreadyEnrolled) ∧
        ((row :: dbNoEnroll.enrollments).filter
          (fun e => e.student == studentUser.id && e.course == 1)).length = 1) ∧
    (studentUser.user_type = "student" → hasEnrollment dbNoEnroll studentUser.id 1 = true →
      enroll_course studentUser "POST" 1 dbNoEnroll = (dbNoEnroll, EnrollOutcome.alreadyEnrolled)) ∧
    (studentUser.user_type ≠ "student" →
      enroll_course studentUser "POST" 1 dbNoEnroll = (dbNoEnroll, EnrollOutcome.notStudent))) :=
  ⟨rfl, rfl, enroll_course_spec studentUser 1 dbNoEnroll ⟨1, 7, true⟩ rfl rfl⟩

/-- C3: creating a content (no `pk`) in an owned module with a recognized
kind and valid forms prepends one new Content row (next to the freshly
saved payload row) whose order is the caller's order verbatim when one
was supplied, and otherwise `k + 1` when the module's maximum existing
order is `k`, or `1` when the module has no ordered content. -/
theorem moduleContent_create_order (req : ContentRequest) (user : CustomUser) (db : DB)
    (m : ModuleRow) (cls : ContentFormClass)
    (hmod : findModuleOwned db req.module_id user = some m)
    (hpk : req.pk = none)
    (hcls : ModuleContentCreateUpdateView.get_content_form_class req.model_name = some cls)
    (hiv : req.itemFormValid = true)
    (hcv : req.contentFormValid = true) :
    ∃ newRow : ContentRow,
      ModuleContentCreateUpdateView.post req user db =
        ({(saveNewVariant db cls req.itemData).1 with
            contents := newRow :: (saveNewVariant db cls req.itemData).1.contents},
          ContentPostOutcome.saved) ∧
      newRow.module = req.module_id ∧ newRow.title = req.formTitle ∧
      (∀ o, req.formOrder = some o → newRow.order = some o) ∧
      (req.formOrder = none → ∀ k, maxOrderIn db req.module_id = some k →
        newRow.order = some (k + 1)) ∧
      (req.formOrder = none → maxOrderIn db req.module_id = none →
        newRow.order = some 1) := by
  refine ⟨⟨nextId ((saveNewVariant db cls req.itemData).1.contents.map (fun c => c.id)),
      req.module_id, req.formTitle,
      some (match req.formOrder with
            | none => ((maxOrderIn db req.module_id).getD 0) + 1
            | some o => o),
      req.model_name, (saveNewVariant db cls req.itemData).2⟩, ?_, rfl, rfl, ?_, ?_, ?_⟩
  · unfold ModuleContentCreateUpdateView.post
    simp only [hmod, hpk, hcls, hiv, hcv, Bool.and_self, if_true]
  · intro o ho
    simp [ho]
  · intro ho k hk
    simp [ho, hk]
  · intro ho hk
    simp [ho, hk]

/-- C3 witness: creating text content with no explicit order in module 1 of
`dbContent` (maximum existing order 1). -/
theorem moduleContent_create_order_witness :
    findModuleOwned dbContent 1 instructorUser = some ⟨1, 1⟩ ∧
    (∃ newRow : ContentRow,
      ModuleContentCreateUpdateView.post ⟨1, "textcontent", none, true, true, "T", none, "x"⟩
          instructorUser dbContent =
        ({(saveNewVariant dbContent ContentFormClass.text "x").1 with
            contents := newRow :: (saveNewVariant dbContent ContentFormClass.text "x").1.contents},
          ContentPostOutcome.saved) ∧
      newRow.module = 1 ∧ newRow.title = "T" ∧
      (∀ o, (none : Option Nat) = some o → newRow.order = some o) ∧
      ((none : Option Nat) = none → ∀ k, maxOrderIn dbContent 1 = some k →
        newRow.order = some (k + 1)) ∧
      ((none : Option Nat) = none → maxOrderIn dbContent 1 = none →
        newRow.order = some 1)) :=
  ⟨rfl, moduleContent_create_order ⟨1, "textcontent", none, true, true, "T", none, "x"⟩
    instructorUser dbContent ⟨1, 1⟩ ContentFormClass.text rfl rfl rfl rfl rfl⟩

/-- C2 amended: on an update of an existing Content reached through an
owned module, a stored-module mismatch fails with NotFound (`Http404`)
and a kind mismatch (with the module matching) fails with the Conflict
redirect; in both cases the database — the Content row and every variant
payload row — is unchanged. -/
theorem content_update_mismatch_amended (req : ContentRequest) (user : CustomUser)
    (db : DB) (m : ModuleRow) (cid : Nat) (content_obj : ContentRow)
    (hmod : findModuleOwned db req.module_id user = some m)
    (hpk : req.pk = some cid)
    (hfind : findContent db cid = some content_obj) :
    (content_obj.module ≠ req.module_id →
      ModuleContentCreateUpdateView.post req user db = (db, ContentPostOutcome.notFound)) ∧
    (content_obj.module = req.module_id →
      itemClassNameLower content_obj db ≠ req.model_name →
      ModuleContentCreateUpdateView.post req user db = (db, ContentPostOutcome.conflict)) := by
  constructor
  · intro hne
    have hb : (content_obj.module != req.module_id) = true := by
      simpa using hne
    unfold ModuleContentCreateUpdateView.post
    simp only [hmod, hpk, hfind, hb, if_true]
  · intro heq hkind
    have hb : (content_obj.module != req.module_id) = false := by
      simp [heq]
    have hk : (itemClassNameLower content_obj db != req.model_name) = true := by
      simpa using hkind
    unfold ModuleContentCreateUpdateView.post
    simp only [hmod, hpk, hfind, hb, Bool.false_eq_true, if_false, hk, if_true]

/-- C2 amended witness: the module-mismatch branch at `reqModuleMismatch`
on `dbContent` (content 5 lives in module 1, request scoped to module 2). -/
theorem content_update_mismatch_amended_witness :
    findModuleOwned dbContent 2 instructorUser = some ⟨2, 1⟩ ∧
    reqModuleMismatch.pk = some 5 ∧
    findContent dbContent 5 = some ⟨5, 1, "t", some 1, "textcontent", 1⟩ ∧
    (((⟨5, 1, "t", some 1, "textcontent", 1⟩ : ContentRow).module ≠ reqModuleMismatch.module_id →
      ModuleContentCreateUpdateView.post reqModuleMismatch instructorUser dbContent =
        (dbContent, ContentPostOutcome.notFound)) ∧
    ((⟨5, 1, "t", some 1, "textcontent", 1⟩ : ContentRow).module = reqModuleMismatch.module_id →
      itemClassNameLower ⟨5, 1, "t", some 1, "textcontent", 1⟩ dbContent ≠ reqModuleMismatch.model_name →
      ModuleContentCreateUpdateView.post reqModuleMismatch instructorUser dbContent =
        (dbContent, ContentPostOutcome.conflict))) :=
  ⟨rfl, rfl, rfl, content_update_mismatch_amended reqModuleMismatch instructorUser dbContent
    ⟨2, 1⟩ 5 ⟨5, 1, "t", some 1, "textcontent", 1⟩ rfl rfl rfl⟩

/-- C9 amended: the generic-foreign-key resolution never yields a
mismatched variant — any resolved variant's kind equals the stored
discriminator and its row id equals the stored target id — and a
discriminator outside the four recognized kinds resolves to `none`
(silently, as the counterexample shows, rather than failing NotFound). -/
theorem content_item_resolution_amended (c : ContentRow) (db : DB) :
    (∀ v, Content.item c db = some v →
      v.className = c.content_type ∧ v.rowId = c.object_id) ∧
    (c.content_type ≠ "textcontent" → c.content_type ≠ "videocontent" →
      c.content_type ≠ "imagecontent" → c.content_type ≠ "filecontent" →
      Content.item c db = none) := by
  constructor
  · intro v hv
    unfold Content.item at hv
    split at hv
    · rename_i heq
      rcases Option.map_eq_some'.mp hv with ⟨r, hr, hvr⟩
      subst hvr
      refine ⟨by rw [heq]; rfl, ?_⟩
      have := List.find?_some hr
      simpa [VariantRow.rowId] using this
    · rename_i heq
      rcases Option.map_eq_some'.mp hv with ⟨r, hr, hvr⟩
      subst hvr
      refine ⟨by rw [heq]; rfl, ?_⟩
      have := List.find?_some hr
      simpa [VariantRow.rowId] using this
    · rename_i heq
      rcases Option.map_eq_some'.mp hv with ⟨r, hr, hvr⟩
      subst hvr
      refine ⟨by rw [heq]; rfl, ?_⟩
      have := List.find?_some hr
      simpa [VariantRow.rowId] using this
    · rename_i heq
      rcases Option.map_eq_some'.mp hv with ⟨r, hr, hvr⟩
      subst hvr
      refine ⟨by rw [heq]; rfl, ?_⟩
      have := List.find?_some hr
      simpa [VariantRow.rowId] using this
    · cases hv
  · intro h1 h2 h3 h4
    unfold Content.item
    split
    · rename_i heq
      exact absurd heq h1
    · rename_i heq
      exact absurd heq h2
    · rename_i heq
      exact absurd heq h3
    · rename_i heq
      exact absurd heq h4
    · rfl

/-- C9 amended witness: content 5 of `dbContent` resolves to text row 1,
whose kind matches the stored discriminator and id. -/
theorem content_item_resolution_amended_witness :
    Content.item ⟨5, 1, "t", some 1, "textcontent", 1⟩ dbContent =
      some (VariantRow.text ⟨1, "hello"⟩) ∧
    ((VariantRow.text ⟨1, "hello"⟩).className =
      (⟨5, 1, "t", some 1, "textcontent", 1⟩ : ContentRow).content_type ∧
      (VariantRow.text ⟨1, "hello"⟩).rowId =
        (⟨5, 1, "t", some 1, "textcontent", 1⟩ : ContentRow).object_id) :=
  ⟨rfl, (content_item_resolution_amended ⟨5, 1, "t", some 1, "textcontent", 1⟩ dbContent).1
    (VariantRow.text ⟨1, "hello"⟩) rfl⟩

/-- The course's content-id list has as many entries as the course has
Content rows (the two definitions walk the same modules-to-contents join). -/
theorem courseContentIds_length (db : DB) (cid : Nat) :
    (courseContentIds db cid).length = totalContents db cid := by
  unfold courseContentIds totalContents
  rw [List.flatMap_def, List.length_flatten, List.map_map]
  simp [Function.comp_def]

/-- C6 amended: `Enrollment.get_progress` is 0 when the course has zero
Content rows; otherwise it equals `100 * |completed_contents| / total`;
it is 100 when the course has content and the completed set equals the
full content set of the course; and it is monotonically non-decreasing
under the completion-set add used by marking and non-increasing under
the remove used by unmarking. -/
theorem enrollment_progress_spec (db : DB) (e : EnrollmentRow) :
    (totalContents db e.course = 0 → Enrollment.get_progress e db = 0) ∧
    (totalContents db e.course ≠ 0 →
      Enrollment.get_progress e db =
        100 * (e.completed_contents.length : ℚ) / (totalContents db e.course : ℚ)) ∧
    (totalContents db e.course ≠ 0 →
      List.Perm e.completed_contents (courseContentIds db e.course) →
      Enrollment.get_progress e db = 100) ∧
    (∀ cid, Enrollment.get_progress e db ≤ Enrollment.get_progress (addCompleted e cid) db) ∧
    (∀ cid, Enrollment.get_progress (removeCompleted e cid) db ≤ Enrollment.get_progress e db) := by
  refine ⟨?_, ?_, ?_, ?_, ?_⟩
  · intro h
    unfold Enrollment.get_progress
    rw [if_pos h]
  · intro h
    unfold Enrollment.get_progress
    rw [if_neg h]
    ring
  · intro h hperm
    have hlen : e.completed_contents.length = totalContents db e.course := by
      rw [hperm.length_eq, courseContentIds_length]
    unfold Enrollment.get_progress
    rw [if_neg h, hlen]
    have ht : ((totalContents db e.course : ℚ)) ≠ 0 := by
      exact_mod_cast h
    rw [div_self ht, one_mul]
  · intro cid
    have hcourse : (addCompleted e cid).course = e.course := by
      unfold addCompleted
      split <;> rfl
    unfold Enrollment.get_progress
    rw [hcourse]
    by_cases h : totalContents db e.course = 0
    · rw [if_pos h, if_pos h]
    · rw [if_neg h, if_neg h]
      have hlen : e.completed_contents.length ≤ (addCompleted e cid).completed_contents.length := by
        unfold addCompleted
        split
        · exact le_refl _
        · exact Nat.le_succ _
      have ht : (0 : ℚ) < (totalContents db e.course : ℚ) := by
        exact_mod_cast Nat.pos_of_ne_zero h
      have hc : (e.completed_contents.length : ℚ) ≤
          ((addCompleted e cid).completed_contents.length : ℚ) := by
        exact_mod_cast hlen
      exact mul_le_mul_of_nonneg_right ((div_le_div_iff_of_pos_right ht).mpr hc) (by norm_num)
  · intro cid
    have hcourse : (removeCompleted e cid).course = e.course := rfl
    unfold Enrollment.get_progress
    rw [hcourse]
    by_cases h : totalContents db e.course = 0
    · rw [if_pos h, if_pos h]
    · rw [if_neg h, if_neg h]
      have hlen : (removeCompleted e cid).completed_contents.length ≤
          e.completed_contents.length :=
        List.length_filter_le _ _
      have ht : (0 : ℚ) < (totalContents db e.course : ℚ) := by
        exact_mod_cast Nat.pos_of_ne_zero h
      have hc : ((removeCompleted e cid).completed_contents.length : ℚ) ≤
          (e.completed_contents.length : ℚ) := by
        exact_mod_cast hlen
      exact mul_le_mul_of_nonneg_right ((div_le_div_iff_of_pos_right ht).mpr hc) (by norm_num)

/-- C6 amended witness: student 21 of `dbProgress` has completed all four
contents of course 1 and the progress is 100. -/
theorem enrollment_progress_spec_witness :
    totalContents dbProgress progressEnrollment.course ≠ 0 ∧
    List.Perm progressEnrollment.completed_contents (courseContentIds dbProgress progressEnrollment.course) ∧
    Enrollment.get_progress progressEnrollment dbProgress = 100 :=
  ⟨by decide, by decide,
    (enrollment_progress_spec dbProgress progressEnrollment).2.2.1 (by decide) (by decide)⟩

/-- Updating one content's order rewrites the found row but never which
row a scoped lookup finds: the lookup on the updated table is the old
lookup with the order rewrite mapped over it. -/
theorem find?_updateContentOrder (db : DB) (j o i mid : Nat) :
    (updateContentOrder db j o).contents.find? (fun c => c.id == i && c.module == mid) =
      Option.map (fun c => if c.id == j then {c with order := some o} else c)
        (db.contents.find? (fun c => c.id == i && c.module == mid)) := by
  have hpf : ((fun c => c.id == i && c.module == mid) ∘
      (fun c : ContentRow => if c.id == j then {c with order := some o} else c)) =
      (fun c : ContentRow => c.id == i && c.module == mid) := by
    funext c
    simp only [Function.comp_def]
    split <;> rfl
  show (db.contents.map (fun c => if c.id == j then {c with order := some o} else c)).find?
      (fun c => c.id == i && c.module == mid) = _
  rw [List.find?_map, hpf]

/-- `itemValid` only looks at which row a scoped lookup finds, so it is
invariant under an order update. -/
theorem itemValid_updateContentOrder (db : DB) (j o mid : Nat) (item : OrderItem) :
    itemValid (updateContentOrder db j o) mid item = itemValid db mid item := by
  rcases item with ⟨_ | i, ord⟩
  · rfl
  · simp only [itemValid]
    rw [find?_updateContentOrder]
    rcases hfind : db.contents.find? (fun c => c.id == i && c.module == mid) with _ | c
    · rw [hfind]
      rfl
    · rw [hfind]
      rfl

/-- `itemFailure` is likewise invariant under an order update. -/
theorem itemFailure_updateContentOrder (db : DB) (j o mid : Nat) (item : OrderItem) :
    itemFailure (updateContentOrder db j o) mid item = itemFailure db mid item := by
  rcases item with ⟨_ | i, ord⟩
  · rfl
  · simp only [itemFailure]
    rw [find?_updateContentOrder]
    rcases hfind : db.contents.find? (fun c => c.id == i && c.module == mid) with _ | c
    · rw [hfind]
      rfl
    · rw [hfind]
      rfl

/-- When every item of the list is valid, the reorder loop applies all of
them and answers the success response. -/
theorem contentOrderLoop_all_valid (mid : Nat) : ∀ (items : List OrderItem) (db : DB),
    (∀ item ∈ items, itemValid db mid item = true) →
    contentOrderLoop mid db items = (applyItems mid db items, OrderResponse.ok) := by
  intro items
  induction items with
  | nil =>
    intro db _
    rfl
  | cons item rest ih =>
    intro db h
    have hvalid := h item (List.mem_cons_self item rest)
    rcases item with ⟨_ | i, _ | o⟩
    · cases hvalid
    · cases hvalid
    · simp only [itemValid] at hvalid
      rcases hfind : db.contents.find? (fun c => c.id == i && c.module == mid) with _ | c
      · rw [hfind] at hvalid
        simp at hvalid
      · rw [hfind] at hvalid
        simp at hvalid
    · rcases hfind : db.contents.find? (fun c => c.id == i && c.module == mid) with _ | c
      · simp only [itemValid] at hvalid
        rw [hfind] at hvalid
        simp at hvalid
      · have hc := List.find?_some hfind
        have hcid : c.id = i := by
          have := (Bool.and_eq_true _ _).mp hc
          simpa using this.1
        simp only [contentOrderLoop, hfind]
        rw [hcid]
        rw [ih (updateContentOrder db i o) ?_]
        · simp only [applyItems]
        · intro x hx
          rw [itemValid_updateContentOrder]
          exact h x (List.mem_cons_of_mem _ hx)

/-- When the items up to some point are valid and that item is not, the
loop applies exactly the valid prefix and answers that item's failure
response: the earlier writes are kept. -/
theorem contentOrderLoop_first_invalid (mid : Nat) (bad : OrderItem) (rest : List OrderItem) :
    ∀ (good : List OrderItem) (db : DB),
    (∀ item ∈ good, itemValid db mid item = true) →
    itemValid db mid bad = false →
    contentOrderLoop mid db (good ++ bad :: rest) =
      (applyItems mid db good, itemFailure db mid bad) := by
  intro good
  induction good with
  | nil =>
    intro db _ hbad
    rcases bad with ⟨_ | i, _ | o⟩
    · simp only [List.nil_append, contentOrderLoop, applyItems, itemFailure]
    · simp only [List.nil_append, contentOrderLoop, applyItems, itemFailure]
    · rcases hfind : db.contents.find? (fun c => c.id == i && c.module == mid) with _ | c
      · simp only [List.nil_append, contentOrderLoop, itemFailure, hfind, applyItems]
      · simp only [List.nil_append, contentOrderLoop, itemFailure, hfind, applyItems]
    · rcases hfind : db.contents.find? (fun c => c.id == i && c.module == mid) with _ | c
      · simp only [List.nil_append, contentOrderLoop, itemFailure, hfind, applyItems]
      · simp only [itemValid] at hbad
        rw [hfind] at hbad
        simp at hbad
  | cons g gs ih =>
    intro db h hbad
    have hvalid := h g (List.mem_cons_self g gs)
    rcases g with ⟨_ | i, _ | o⟩
    · cases hvalid
    · cases hvalid
    · simp only [itemValid] at hvalid
      rcases hfind : db.contents.find? (fun c => c.id == i && c.module == mid) with _ | c
      · rw [hfind] at hvalid
        simp at hvalid
      · rw [hfind] at hvalid
        simp at hvalid
    · rcases hfind : db.contents.find? (fun c => c.id == i && c.module == mid) with _ | c
      · simp only [itemValid] at hvalid
        rw [hfind] at hvalid
        simp at hvalid
      · have hc := List.find?_some hfind
        have hcid : c.id = i := by
          have := (Bool.and_eq_true _ _).mp hc
          simpa using this.1
        simp only [List.cons_append, contentOrderLoop, hfind]
        rw [hcid]
        show contentOrderLoop mid (updateContentOrder db i o) (gs ++ bad :: rest) = _
        rw [ih (updateContentOrder db i o) ?_ ?_]
        · rw [itemFailure_updateContentOrder]
          simp only [applyItems]
        · intro x hx
          rw [itemValid_updateContentOrder]
          exact h x (List.mem_cons_of_mem _ hx)
        · rw [itemValid_updateContentOrder]
          exact hbad

/-- C1 amended: the bulk reorder endpoint does not pre-validate the batch.
It walks the pairs in order, writing each in-scope pair's order as it
goes; a request whose pairs are all well-formed and in scope succeeds
with all of them applied, while a request with a first offending pair
fails with that pair's NotFound/BadRequest response after the writes for
the pairs before it have already been applied (partial application). -/
theorem contentOrder_sequential_amended (user : CustomUser) (mid : Nat) (db : DB)
    (m : ModuleRow) (hmod : findModuleOwned db mid user = some m) :
    (∀ items : List OrderItem, (∀ item ∈ items, itemValid db mid item = true) →
      ContentOrderView.post user mid (some items) db =
        (applyItems mid db items, OrderResponse.ok)) ∧
    (∀ (good : List OrderItem) (bad : OrderItem) (rest : List OrderItem),
      (∀ item ∈ good, itemValid db mid item = true) →
      itemValid db mid bad = false →
      ContentOrderView.post user mid (some (good ++ bad :: rest)) db =
        (applyItems mid db good, itemFailure db mid bad)) := by
  constructor
  · intro items h
    unfold ContentOrderView.post
    simp only [hmod]
    exact contentOrderLoop_all_valid mid items db h
  · intro good bad rest h hbad
    unfold ContentOrderView.post
    simp only [hmod]
    exact contentOrderLoop_first_invalid mid bad rest good db h hbad

/-- C1 amended witness: on module 1 of `dbReorder`, the request
[{id:3,order:7},{id:2,order:1},{id:4,order:9}] fails at its second pair
(content 2 is in module 2) with the write for the first pair kept. -/
theorem contentOrder_sequential_amended_witness :
    findModuleOwned dbReorder 1 instructorUser = some ⟨1, 1⟩ ∧
    ContentOrderView.post instructorUser 1
        (some [⟨some 3, some 7⟩, ⟨some 2, some 1⟩, ⟨some 4, some 9⟩]) dbReorder =
      (applyItems 1 dbReorder [⟨some 3, some 7⟩],
        itemFailure dbReorder 1 ⟨some 2, some 1⟩) :=
  ⟨rfl, (contentOrder_sequential_amended instructorUser 1 dbReorder ⟨1, 1⟩ rfl).2
    [⟨some 3, some 7⟩] ⟨some 2, some 1⟩ [⟨some 4, some 9⟩] (by decide) (by decide)⟩

end Ehblo
